import Mathlib

/-!
Shallow embedding of `src/organize_images_by_date.py`.

The script is modelled as a pure function from an `Input` (the outcome of the
`os.path.isdir` check, the path arithmetic, and the list of files yielded by
`os.walk`) to the list of filesystem/console effects it performs
(`makedirs` / `copy2` / `print`) together with its boolean return value.
A second variant `organizeE` additionally threads an oracle telling which
`shutil.copy2` calls raise, to study error propagation.
-/

namespace OrganizeImages

/-- `os.path.join` on POSIX. -/
def joinPath (a b : String) : String := a ++ "/" ++ b

/-- Model of Python `str.lower()` (ASCII case folding). -/
def strToLower (s : String) : String := String.mk (s.data.map Char.toLower)

/-- Model of Python `str.endswith(post)`. -/
def strEndsWith (s post : String) : Bool := post.data.isSuffixOf s.data

/-- The extension whitelist from line 69 of the source. -/
def image_extensions : List String :=
  [".jpg", ".jpeg", ".png", ".gif", ".bmp", ".tiff", ".webp"]

/-- Line 70: `any(filename.lower().endswith(ext) for ext in image_extensions)`. -/
def isImageFile (filename : String) : Bool :=
  image_extensions.any (fun ext => strEndsWith (strToLower filename) ext)

/-- Model of `re.search(r'^(\d{4})(\d{2})(\d{2})_', filename)`: anchored at the
start, returns the three captured groups (year, month, day). -/
def matchPattern1 : List Char → Option (String × String × String)
  | y1 :: y2 :: y3 :: y4 :: m1 :: m2 :: d1 :: d2 :: '_' :: _ =>
    if y1.isDigit && y2.isDigit && y3.isDigit && y4.isDigit &&
       m1.isDigit && m2.isDigit && d1.isDigit && d2.isDigit then
      some (String.mk [y1, y2, y3, y4], String.mk [m1, m2], String.mk [d1, d2])
    else
      none
  | _ => none

/-- One attempted match of `IMG-(\d{4})(\d{2})(\d{2})-` at the head of the list. -/
def matchPattern2At : List Char → Option (String × String × String)
  | 'I' :: 'M' :: 'G' :: '-' :: y1 :: y2 :: y3 :: y4 :: m1 :: m2 :: d1 :: d2 :: '-' :: _ =>
    if y1.isDigit && y2.isDigit && y3.isDigit && y4.isDigit &&
       m1.isDigit && m2.isDigit && d1.isDigit && d2.isDigit then
      some (String.mk [y1, y2, y3, y4], String.mk [m1, m2], String.mk [d1, d2])
    else
      none
  | _ => none

/-- Model of `re.search(r'IMG-(\d{4})(\d{2})(\d{2})-', filename)`: unanchored
search, leftmost match wins. -/
def matchPattern2 : List Char → Option (String × String × String)
  | [] => none
  | c :: rest =>
    match matchPattern2At (c :: rest) with
    | some g => some g
    | none => matchPattern2 rest

/-- Lines 76-92: the `for pattern in date_patterns` loop with `break` on the
first match; pattern 1 is tried before pattern 2. -/
def firstPatternMatch (filename : String) : Option (String × String × String) :=
  match matchPattern1 filename.data with
  | some g => some g
  | none => matchPattern2 filename.data

/-- The local calendar datetime obtained from
`datetime.fromtimestamp(os.path.getmtime(path))`. -/
structure Date where
  year : Nat
  month : Nat
  day : Nat
deriving DecidableEq, Repr

/-- `strftime("%m")`: the month, zero-padded to two digits. -/
def pad2 (n : Nat) : String := if n < 10 then "0" ++ toString n else toString n

/-- `strftime("%Y")`: the year, zero-padded to four digits. -/
def pad4 (n : Nat) : String :=
  if n < 10 then "000" ++ toString n
  else if n < 100 then "00" ++ toString n
  else if n < 1000 then "0" ++ toString n
  else toString n

/-- The side effects the script performs. -/
inductive Effect where
  | makedirs (path : String)
  | copy2 (src dest : String)
  | print (line : String)
deriving DecidableEq, Repr

/-- One file yielded by the `os.walk` loop: the directory `root` it lives in,
its bare `filename`, the outcome of the `os.path.isfile` check, and the outcome
of reading `datetime.fromtimestamp(os.path.getmtime(...))` (`Except.error e`
when that raises, `e` being `str(e)` of the exception). -/
structure FileInfo where
  root : String
  filename : String
  isFile : Bool
  mtime : Except String Date
deriving Repr

/-- Lines 61-118: the per-file body of the walk loop.  Returns the effects
performed for this file and the `processed_files[filename] = bucket`
assignment made (if any). -/
def processFile (target_dir unknown_date_dir : String) (f : FileInfo) :
    List Effect × Option (String × String) :=
  if !f.isFile then ([], none)
  else if !isImageFile f.filename then ([], none)
  else
    let file_path := joinPath f.root f.filename
    match firstPatternMatch f.filename with
    | some (year, month, _day) =>
      let year_month_dir := joinPath target_dir (year ++ "-" ++ month)
      ([Effect.makedirs year_month_dir,
        Effect.copy2 file_path (joinPath year_month_dir f.filename),
        Effect.print ("Copied " ++ f.filename ++ " to " ++ year_month_dir)],
       some (f.filename, year ++ "-" ++ month))
    | none =>
      match f.mtime with
      | Except.ok dt =>
        let year := pad4 dt.year
        let month := pad2 dt.month
        let year_month_dir := joinPath target_dir (year ++ "-" ++ month)
        ([Effect.makedirs year_month_dir,
          Effect.copy2 file_path (joinPath year_month_dir f.filename),
          Effect.print ("Copied " ++ f.filename ++ " to " ++ year_month_dir ++
            " (using file modification time)")],
         some (f.filename, year ++ "-" ++ month))
      | Except.error e =>
        ([Effect.copy2 file_path (joinPath unknown_date_dir f.filename),
          Effect.print ("Copied " ++ f.filename ++
            " to unknown_date directory (error: " ++ e ++ ")")],
         some (f.filename, "unknown_date"))

/-- CPython dict assignment `m[k] = v`: updates the value in place if the key
is present (keeping its position), appends otherwise. -/
def dictInsert : List (String × String) → String → String → List (String × String)
  | [], k, v => [(k, v)]
  | (k', v') :: rest, k, v =>
    if k' = k then (k, v) :: rest else (k', v') :: dictInsert rest k v

/-- `year_month_counts[ym] = year_month_counts.get(ym, 0) + 1`. -/
def incrCount : List (String × Nat) → String → List (String × Nat)
  | [], k => [(k, 1)]
  | (k', c) :: rest, k =>
    if k' = k then (k', c + 1) :: rest else (k', c) :: incrCount rest k

/-- Boolean total order on strings used to model Python `sorted`. -/
def strLe (a b : String) : Bool := !decide (b < a)

/-- Insertion into a sorted list (stable, ascending). -/
def insertSorted (x : String × Nat) : List (String × Nat) → List (String × Nat)
  | [] => [x]
  | y :: ys => if strLe x.1 y.1 then x :: y :: ys else y :: insertSorted x ys

/-- Model of `sorted(year_month_counts.items())` (keys are unique, so sorting
by key matches sorting the pairs). -/
def sortByKey (l : List (String × Nat)) : List (String × Nat) :=
  l.foldr insertSorted []

/-- Lines 121-124: build `year_month_counts` from the processed map. -/
def year_month_counts (processed : List (String × String)) : List (String × Nat) :=
  processed.foldl (fun acc kv => incrCount acc kv.2) []

/-- Lines 120-130: the summary block printed after the walk. -/
def summaryEffects (target_dir : String) (processed : List (String × String)) :
    List Effect :=
  [Effect.print ("\nSummary of organization:")] ++
  (sortByKey (year_month_counts processed)).map
    (fun p => Effect.print (p.1 ++ ": " ++ toString p.2 ++ " files")) ++
  [Effect.print ("\nTotal files processed: " ++ toString processed.length),
   Effect.print ("\nOrganized files are in: " ++ target_dir)]

/-- The environment `organize_images(source_dir)` runs against: the argument
string, the `os.path.isdir` answer, `os.path.dirname(os.path.abspath(...))`,
and the files the recursive walk yields, in walk order. -/
structure Input where
  source_dir : String
  isDir : Bool
  parent_dir : String
  files : List FileInfo

/-- The fold step of the walk loop: accumulate effects and the
`processed_files` dict. -/
def stepP (t u : String) (acc : List Effect × List (String × String))
    (f : FileInfo) : List Effect × List (String × String) :=
  let r := processFile t u f
  (acc.1 ++ r.1,
   match r.2 with
   | some kv => dictInsert acc.2 kv.1 kv.2
   | none => acc.2)

/-- Lines 26-132: `organize_images(source_dir)`.  Returns the effect trace and
the boolean result. -/
def organize_images (inp : Input) : List Effect × Bool :=
  if !inp.isDir then
    ([Effect.print ("Error: Source directory '" ++ inp.source_dir ++
        "' does not exist.")], false)
  else
    let target_dir := joinPath inp.parent_dir "organized"
    let unknown_date_dir := joinPath target_dir "unknown_date"
    let init : List Effect × List (String × String) :=
      ([Effect.makedirs target_dir, Effect.makedirs unknown_date_dir], [])
    let r := inp.files.foldl (stepP target_dir unknown_date_dir) init
    (r.1 ++ summaryEffects target_dir r.2, true)

/-- `target_dir` as computed on line 40. -/
def targetOf (inp : Input) : String := joinPath inp.parent_dir "organized"

/-- `unknown_date_dir` as computed on line 56. -/
def unknownOf (inp : Input) : String := joinPath (targetOf inp) "unknown_date"

/-- The two eager `makedirs` calls (lines 41 and 57). -/
def headerEffects (inp : Input) : List Effect :=
  [Effect.makedirs (targetOf inp), Effect.makedirs (unknownOf inp)]

/-- The sequence of `processed_files[filename] = bucket` assignments, in walk
order, duplicates included. -/
def processedEntries (t u : String) (files : List FileInfo) :
    List (String × String) :=
  files.filterMap (fun f => (processFile t u f).2)

/-- `processedEntries` specialised to an `Input`. -/
def entriesOf (inp : Input) : List (String × String) :=
  processedEntries (targetOf inp) (unknownOf inp) inp.files

/-- All per-file effects of the walk, concatenated in walk order. -/
def allFileEffects (inp : Input) : List Effect :=
  (inp.files.map (fun f => (processFile (targetOf inp) (unknownOf inp) f).1)).flatten

/-- The final `processed_files` dict. -/
def processedMapOf (inp : Input) : List (String × String) :=
  (entriesOf inp).foldl (fun m kv => dictInsert m kv.1 kv.2) []

/-- Whether an effect is a `shutil.copy2` call. -/
def Effect.isCopy : Effect → Bool
  | Effect.copy2 _ _ => true
  | _ => false

/-- Number of `copy2` calls in a trace. -/
def copyCount (fx : List Effect) : Nat := (fx.filter Effect.isCopy).length

/-!  A refinement of the embedding in which `shutil.copy2` may raise: the
oracle `copyFail src dest` returns `some err` when that call raises with
message `err`.  `Except.error e` means an exception escaped
`organize_images` and terminated the run. -/

/-- Lines 61-118 with fallible `copy2`.  On the pattern branch (lines 76-92)
`copy2` runs outside any `try`, so a failure propagates.  On the fallback
branch the `try` of line 96 wraps both the mtime read and the `copy2` of
line 109, so a failure of either lands in the `except` of line 113, whose own
`copy2` (line 116) is unprotected. -/
def processFileE (target_dir unknown_date_dir : String)
    (copyFail : String → String → Option String) (f : FileInfo) :
    Except String (List Effect × Option (String × String)) :=
  if !f.isFile then Except.ok ([], none)
  else if !isImageFile f.filename then Except.ok ([], none)
  else
    let file_path := joinPath f.root f.filename
    let handler : String → List Effect →
        Except String (List Effect × Option (String × String)) :=
      fun err fx0 =>
        let dest_path := joinPath unknown_date_dir f.filename
        match copyFail file_path dest_path with
        | some err2 => Except.error err2
        | none =>
          Except.ok (fx0 ++
            [Effect.copy2 file_path dest_path,
             Effect.print ("Copied " ++ f.filename ++
               " to unknown_date directory (error: " ++ err ++ ")")],
            some (f.filename, "unknown_date"))
    match firstPatternMatch f.filename with
    | some (year, month, _day) =>
      let year_month_dir := joinPath target_dir (year ++ "-" ++ month)
      let dest_path := joinPath year_month_dir f.filename
      match copyFail file_path dest_path with
      | some err => Except.error err
      | none =>
        Except.ok
          ([Effect.makedirs year_month_dir,
            Effect.copy2 file_path dest_path,
            Effect.print ("Copied " ++ f.filename ++ " to " ++ year_month_dir)],
           some (f.filename, year ++ "-" ++ month))
    | none =>
      match f.mtime with
      | Except.error err => handler err []
      | Except.ok dt =>
        let year := pad4 dt.year
        let month := pad2 dt.month
        let year_month_dir := joinPath target_dir (year ++ "-" ++ month)
        let dest_path := joinPath year_month_dir f.filename
        match copyFail file_path dest_path with
        | some err => handler err [Effect.makedirs year_month_dir]
        | none =>
          Except.ok
            ([Effect.makedirs year_month_dir,
              Effect.copy2 file_path dest_path,
              Effect.print ("Copied " ++ f.filename ++ " to " ++ year_month_dir ++
                " (using file modification time)")],
             some (f.filename, year ++ "-" ++ month))

/-- Fold step of the walk loop with fallible copies: a per-file exception
aborts the whole fold. -/
def stepPE (t u : String) (copyFail : String → String → Option String)
    (acc : List Effect × List (String × String)) (f : FileInfo) :
    Except String (List Effect × List (String × String)) :=
  match processFileE t u copyFail f with
  | Except.error e => Except.error e
  | Except.ok (fx, rec?) =>
    Except.ok (acc.1 ++ fx,
      match rec? with
      | some kv => dictInsert acc.2 kv.1 kv.2
      | none => acc.2)

/-- `organize_images` with fallible copies. -/
def organizeE (inp : Input) (copyFail : String → String → Option String) :
    Except String (List Effect × Bool) :=
  if !inp.isDir then
    Except.ok ([Effect.print ("Error: Source directory '" ++ inp.source_dir ++
        "' does not exist.")], false)
  else
    let target_dir := joinPath inp.parent_dir "organized"
    let unknown_date_dir := joinPath target_dir "unknown_date"
    let init : List Effect × List (String × String) :=
      ([Effect.makedirs target_dir, Effect.makedirs unknown_date_dir], [])
    match inp.files.foldlM (stepPE target_dir unknown_date_dir copyFail) init with
    | Except.error e => Except.error e
    | Except.ok r => Except.ok (r.1 ++ summaryEffects target_dir r.2, true)

instance {ε α : Type} [DecidableEq ε] [DecidableEq α] : DecidableEq (Except ε α) :=
  fun a b =>
    match a, b with
    | Except.ok x, Except.ok y =>
      if h : x = y then isTrue (by rw [h])
      else isFalse (fun hc => h (Except.ok.inj hc))
    | Except.error x, Except.error y =>
      if h : x = y then isTrue (by rw [h])
      else isFalse (fun hc => h (Except.error.inj hc))
    | Except.ok _, Except.error _ => isFalse (fun hc => Except.noConfusion hc)
    | Except.error _, Except.ok _ => isFalse (fun hc => Except.noConfusion hc)

/-! ### Structural lemmas about the walk fold -/

theorem stepP_fst (t u : String) (acc : List Effect × List (String × String))
    (f : FileInfo) : (stepP t u acc f).1 = acc.1 ++ (processFile t u f).1 := rfl

theorem foldl_stepP_fst (t u : String) (files : List FileInfo) :
    ∀ (fx0 : List Effect) (m0 : List (String × String)),
    (files.foldl (stepP t u) (fx0, m0)).1 =
      fx0 ++ (files.map (fun f => (processFile t u f).1)).flatten := by
  induction files with
  | nil => intro fx0 m0; simp
  | cons f fs ih =>
    intro fx0 m0
    have h1 : ((f :: fs).foldl (stepP t u) (fx0, m0)).1 =
        (fs.foldl (stepP t u)
          ((stepP t u (fx0, m0) f).1, (stepP t u (fx0, m0) f).2)).1 := rfl
    rw [h1, ih, stepP_fst]
    simp [List.append_assoc]

theorem foldl_stepP_snd (t u : String) (files : List FileInfo) :
    ∀ (fx0 : List Effect) (m0 : List (String × String)),
    (files.foldl (stepP t u) (fx0, m0)).2 =
      (processedEntries t u files).foldl (fun m kv => dictInsert m kv.1 kv.2) m0 := by
  induction files with
  | nil => intro fx0 m0; simp [processedEntries]
  | cons f fs ih =>
    intro fx0 m0
    have h1 : ((f :: fs).foldl (stepP t u) (fx0, m0)).2 =
        (fs.foldl (stepP t u)
          ((stepP t u (fx0, m0) f).1, (stepP t u (fx0, m0) f).2)).2 := rfl
    rw [h1, ih]
    cases hpf : (processFile t u f).2 with
    | none =>
      have h2 : (stepP t u (fx0, m0) f).2 = m0 := by
        simp [stepP, hpf]
      rw [h2]
      simp [processedEntries, List.filterMap_cons, hpf]
    | some kv =>
      have h2 : (stepP t u (fx0, m0) f).2 = dictInsert m0 kv.1 kv.2 := by
        simp [stepP, hpf]
      rw [h2]
      simp [processedEntries, List.filterMap_cons, hpf]

theorem organize_images_decomp (inp : Input) (h : inp.isDir = true) :
    organize_images inp =
      (headerEffects inp ++ (allFileEffects inp ++
        summaryEffects (targetOf inp) (processedMapOf inp)), true) := by
  obtain ⟨sd, isd, pd, fls⟩ := inp
  subst h
  have hfst := foldl_stepP_fst (targetOf ⟨sd, true, pd, fls⟩)
    (unknownOf ⟨sd, true, pd, fls⟩) fls (headerEffects ⟨sd, true, pd, fls⟩) []
  have hsnd := foldl_stepP_snd (targetOf ⟨sd, true, pd, fls⟩)
    (unknownOf ⟨sd, true, pd, fls⟩) fls (headerEffects ⟨sd, true, pd, fls⟩) []
  show ((fls.foldl (stepP _ _) (headerEffects ⟨sd, true, pd, fls⟩, [])).1 ++
      summaryEffects _ (fls.foldl (stepP _ _) (headerEffects ⟨sd, true, pd, fls⟩, [])).2,
      true) = _
  simp only [targetOf, unknownOf] at hfst hsnd
  rw [hfst, hsnd]
  simp [allFileEffects, processedMapOf, entriesOf, targetOf, unknownOf,
    List.append_assoc]

/-- Exhaustive description of the four outcomes of the per-file loop body. -/
theorem processFile_cases (t u : String) (f : FileInfo) :
    processFile t u f = ([], none) ∨
    (∃ b, processFile t u f =
      ([Effect.makedirs (joinPath t b),
        Effect.copy2 (joinPath f.root f.filename) (joinPath (joinPath t b) f.filename),
        Effect.print ("Copied " ++ f.filename ++ " to " ++ joinPath t b)],
       some (f.filename, b))) ∨
    (∃ b, processFile t u f =
      ([Effect.makedirs (joinPath t b),
        Effect.copy2 (joinPath f.root f.filename) (joinPath (joinPath t b) f.filename),
        Effect.print ("Copied " ++ f.filename ++ " to " ++ joinPath t b ++
          " (using file modification time)")],
       some (f.filename, b))) ∨
    (∃ e, processFile t u f =
      ([Effect.copy2 (joinPath f.root f.filename) (joinPath u f.filename),
        Effect.print ("Copied " ++ f.filename ++
          " to unknown_date directory (error: " ++ e ++ ")")],
       some (f.filename, "unknown_date"))) := by
  unfold processFile
  cases f.isFile with
  | false => exact Or.inl rfl
  | true =>
    cases himg : isImageFile f.filename with
    | false => simp [himg]
    | true =>
      simp only [himg, Bool.not_true, Bool.false_eq_true, if_false]
      cases hpat : firstPatternMatch f.filename with
      | some g =>
        obtain ⟨y, m, dd⟩ := g
        exact Or.inr (Or.inl ⟨y ++ "-" ++ m, rfl⟩)
      | none =>
        cases hmt : f.mtime with
        | ok dt =>
          exact Or.inr (Or.inr (Or.inl ⟨pad4 dt.year ++ "-" ++ pad2 dt.month, rfl⟩))
        | error e =>
          exact Or.inr (Or.inr (Or.inr ⟨e, rfl⟩))

/-- A non-image filename is skipped entirely (lines 68-71). -/
theorem processFile_skip (t u : String) (f : FileInfo)
    (h : isImageFile f.filename = false) : processFile t u f = ([], none) := by
  unfold processFile
  cases f.isFile with
  | false => rfl
  | true => simp [h]

/-- Every effect in the summary block is a `print`. -/
theorem summaryEffects_print (t : String) (p : List (String × String)) (e : Effect)
    (he : e ∈ summaryEffects t p) : ∃ s, e = Effect.print s := by
  unfold summaryEffects at he
  simp only [List.mem_append, List.mem_cons, List.mem_map, List.not_mem_nil,
    or_false] at he
  rcases he with (h | ⟨x, hx, h⟩) | h | h
  · exact ⟨_, h⟩
  · exact ⟨_, h.symm⟩
  · exact ⟨_, h⟩
  · exact ⟨_, h⟩

/-- Shape of every effect the per-file body can emit. -/
theorem processFile_mem_shape (t u : String) (f : FileInfo) (e : Effect)
    (he : e ∈ (processFile t u f).1) :
    (∃ s, e = Effect.print s) ∨ (∃ p, e = Effect.makedirs p) ∨
    (∃ b, e = Effect.copy2 (joinPath f.root f.filename)
        (joinPath (joinPath t b) f.filename) ∧
      (processFile t u f).2 = some (f.filename, b)) ∨
    (e = Effect.copy2 (joinPath f.root f.filename) (joinPath u f.filename) ∧
      (processFile t u f).2 = some (f.filename, "unknown_date")) := by
  rcases processFile_cases t u f with h | ⟨b, h⟩ | ⟨b, h⟩ | ⟨e0, h⟩ <;> rw [h] at he ⊢
  · simp at he
  · simp only [List.mem_cons, List.not_mem_nil, or_false] at he
    rcases he with h1 | h1 | h1
    · exact Or.inr (Or.inl ⟨_, h1⟩)
    · exact Or.inr (Or.inr (Or.inl ⟨b, h1, rfl⟩))
    · exact Or.inl ⟨_, h1⟩
  · simp only [List.mem_cons, List.not_mem_nil, or_false] at he
    rcases he with h1 | h1 | h1
    · exact Or.inr (Or.inl ⟨_, h1⟩)
    · exact Or.inr (Or.inr (Or.inl ⟨b, h1, rfl⟩))
    · exact Or.inl ⟨_, h1⟩
  · simp only [List.mem_cons, List.not_mem_nil, or_false] at he
    rcases he with h1 | h1
    · exact Or.inr (Or.inr (Or.inr ⟨h1, rfl⟩))
    · exact Or.inl ⟨_, h1⟩

/-- Skipped files leave the fold accumulator unchanged. -/
theorem stepP_skip (t u : String) (f : FileInfo)
    (h : isImageFile f.filename = false)
    (acc : List Effect × List (String × String)) : stepP t u acc f = acc := by
  obtain ⟨fx, m⟩ := acc
  simp [stepP, processFile_skip t u f h]

theorem copyCount_append (a b : List Effect) :
    copyCount (a ++ b) = copyCount a + copyCount b := by
  simp [copyCount, List.filter_append]

theorem copyCount_processFile (t u : String) (f : FileInfo) :
    copyCount (processFile t u f).1 =
      match (processFile t u f).2 with
      | some _ => 1
      | none => 0 := by
  rcases processFile_cases t u f with h | ⟨b, h⟩ | ⟨b, h⟩ | ⟨e0, h⟩ <;> rw [h] <;> rfl

theorem copyCount_flatten (t u : String) (files : List FileInfo) :
    copyCount ((files.map (fun f => (processFile t u f).1)).flatten) =
      (processedEntries t u files).length := by
  induction files with
  | nil => rfl
  | cons f fs ih =>
    simp only [List.map_cons, List.flatten_cons, copyCount_append, ih]
    rw [copyCount_processFile]
    cases hpf : (processFile t u f).2 with
    | none => simp [processedEntries, List.filterMap_cons, hpf]
    | some kv =>
      simp [processedEntries, List.filterMap_cons, hpf]
      omega

theorem copyCount_summary (t : String) (p : List (String × String)) :
    copyCount (summaryEffects t p) = 0 := by
  have hnil : (summaryEffects t p).filter Effect.isCopy = [] := by
    rw [List.filter_eq_nil_iff]
    intro e he
    obtain ⟨s, rfl⟩ := summaryEffects_print t p e he
    simp [Effect.isCopy]
  simp [copyCount, hnil]

theorem copyCount_organize (inp : Input) (h : inp.isDir = true) :
    copyCount (organize_images inp).1 = (entriesOf inp).length := by
  rw [organize_images_decomp inp h]
  show copyCount (headerEffects inp ++ (allFileEffects inp ++
    summaryEffects (targetOf inp) (processedMapOf inp))) = _
  rw [copyCount_append, copyCount_append, copyCount_summary]
  have hhdr : copyCount (headerEffects inp) = 0 := rfl
  unfold allFileEffects
  rw [copyCount_flatten, hhdr]
  show 0 + ((entriesOf inp).length + 0) = _
  omega

/-! ### The `processed_files` dict: keys, cardinality -/

theorem dictInsert_keys (m : List (String × String)) (k v : String) :
    (dictInsert m k v).map Prod.fst =
      if k ∈ m.map Prod.fst then m.map Prod.fst else m.map Prod.fst ++ [k] := by
  induction m with
  | nil => simp [dictInsert]
  | cons kv' rest ih =>
    obtain ⟨k', v'⟩ := kv'
    by_cases hk : k' = k
    · subst hk
      simp [dictInsert]
    · have hne : ¬ k = k' := fun hh => hk hh.symm
      by_cases hmem : k ∈ rest.map Prod.fst
      · simp [dictInsert, hk, ih, hmem, hne]
      · simp [dictInsert, hk, ih, hmem, hne]

theorem dictInsert_nodup (m : List (String × String)) (k v : String)
    (h : (m.map Prod.fst).Nodup) : ((dictInsert m k v).map Prod.fst).Nodup := by
  rw [dictInsert_keys]
  by_cases hmem : k ∈ m.map Prod.fst
  · simpa [hmem]
  · simp [hmem, List.nodup_append, h]

theorem dictInsert_keys_toFinset (m : List (String × String)) (k v : String) :
    ((dictInsert m k v).map Prod.fst).toFinset =
      insert k (m.map Prod.fst).toFinset := by
  rw [dictInsert_keys]
  by_cases hmem : k ∈ m.map Prod.fst
  · rw [if_pos hmem]
    exact (Finset.insert_eq_self.mpr (List.mem_toFinset.mpr hmem)).symm
  · rw [if_neg hmem]
    simp [List.toFinset_append, Finset.union_comm]
    rw [Finset.insert_eq]

theorem pmFold_nodup (entries : List (String × String)) :
    ∀ m0 : List (String × String), (m0.map Prod.fst).Nodup →
    ((entries.foldl (fun m kv => dictInsert m kv.1 kv.2) m0).map Prod.fst).Nodup := by
  induction entries with
  | nil => intro m0 h; exact h
  | cons kv es ih =>
    intro m0 h
    exact ih _ (dictInsert_nodup m0 kv.1 kv.2 h)

theorem pmFold_toFinset (entries : List (String × String)) :
    ∀ m0 : List (String × String),
    ((entries.foldl (fun m kv => dictInsert m kv.1 kv.2) m0).map Prod.fst).toFinset =
      (m0.map Prod.fst).toFinset ∪ (entries.map Prod.fst).toFinset := by
  induction entries with
  | nil => intro m0; simp
  | cons kv es ih =>
    intro m0
    rw [List.foldl_cons, ih, dictInsert_keys_toFinset]
    simp [Finset.insert_union, Finset.union_insert]

/-- `len(processed_files)` counts the distinct filenames among processed
files, not the processed files themselves. -/
theorem processedMapOf_length (inp : Input) :
    (processedMapOf inp).length = ((entriesOf inp).map Prod.fst).toFinset.card := by
  unfold processedMapOf
  have hnd := pmFold_nodup (entriesOf inp) [] (by simp)
  have htf := pmFold_toFinset (entriesOf inp) []
  calc ((entriesOf inp).foldl (fun m kv => dictInsert m kv.1 kv.2) []).length
      = (((entriesOf inp).foldl (fun m kv => dictInsert m kv.1 kv.2) []).map
          Prod.fst).length := (List.length_map _ _).symm
    _ = (((entriesOf inp).foldl (fun m kv => dictInsert m kv.1 kv.2) []).map
          Prod.fst).toFinset.card := (List.toFinset_card_of_nodup hnd).symm
    _ = ((entriesOf inp).map Prod.fst).toFinset.card := by rw [htf]; simp

theorem toFinset_card_lt_of_dup (l : List String) (h : ¬ l.Nodup) :
    l.toFinset.card < l.length := by
  induction l with
  | nil => exact absurd List.nodup_nil h
  | cons a t ih =>
    rw [List.toFinset_cons, List.length_cons]
    by_cases ha : a ∈ t
    · have h1 : insert a t.toFinset = t.toFinset :=
        Finset.insert_eq_self.mpr (List.mem_toFinset.mpr ha)
      rw [h1]
      exact Nat.lt_succ_of_le (List.toFinset_card_le t)
    · have hnt : ¬ t.Nodup := fun hnd => h (List.nodup_cons.mpr ⟨ha, hnd⟩)
      calc (insert a t.toFinset).card ≤ t.toFinset.card + 1 := Finset.card_insert_le _ _
        _ < t.length + 1 := Nat.add_lt_add_right (ih hnt) 1

/-! ### The per-bucket counts -/

theorem incrCount_sum (a : List (String × Nat)) (k : String) :
    ((incrCount a k).map Prod.snd).sum = (a.map Prod.snd).sum + 1 := by
  induction a with
  | nil => simp [incrCount]
  | cons kv rest ih =>
    obtain ⟨k', c⟩ := kv
    by_cases hk : k' = k
    · subst hk
      simp [incrCount]
      omega
    · simp [incrCount, hk, ih]
      omega

theorem year_month_counts_sum (p : List (String × String)) :
    ∀ acc : List (String × Nat),
    ((p.foldl (fun a kv => incrCount a kv.2) acc).map Prod.snd).sum =
      (acc.map Prod.snd).sum + p.length := by
  induction p with
  | nil => intro acc; simp
  | cons kv rest ih =>
    intro acc
    rw [List.foldl_cons, ih, incrCount_sum]
    simp
    omega

theorem insertSorted_mem (x y : String × Nat) (l : List (String × Nat))
    (h : x ∈ insertSorted y l) : x = y ∨ x ∈ l := by
  induction l with
  | nil =>
    simp [insertSorted] at h
    exact Or.inl h
  | cons z zs ih =>
    simp only [insertSorted] at h
    split at h
    · simpa [List.mem_cons] using h
    · rcases List.mem_cons.mp h with h1 | h1
      · exact Or.inr (List.mem_cons.mpr (Or.inl h1))
      · rcases ih h1 with h2 | h2
        · exact Or.inl h2
        · exact Or.inr (List.mem_cons.mpr (Or.inr h2))

theorem sortByKey_mem (x : String × Nat) (l : List (String × Nat))
    (h : x ∈ sortByKey l) : x ∈ l := by
  induction l with
  | nil => simp [sortByKey] at h
  | cons z zs ih =>
    have h' : x ∈ insertSorted z (sortByKey zs) := h
    rcases insertSorted_mem x z (sortByKey zs) h' with h1 | h1
    · simp [h1]
    · exact List.mem_cons_of_mem _ (ih h1)

theorem year_month_counts_le (p : List (String × String)) (b : String) (c : Nat)
    (h : (b, c) ∈ year_month_counts p) : c ≤ p.length := by
  have hc : c ∈ (year_month_counts p).map Prod.snd :=
    List.mem_map.mpr ⟨(b, c), h, rfl⟩
  have hle := List.single_le_sum (fun x _ => Nat.zero_le x) c hc
  have hsum := year_month_counts_sum p []
  unfold year_month_counts at hle
  rw [hsum] at hle
  simpa using hle

/-! ### Error propagation through the fallible fold -/

theorem foldlM_stepPE_error (t u : String) (cf : String → String → Option String)
    (f : FileInfo) (post : List FileInfo) (e : String)
    (hf : processFileE t u cf f = Except.error e) :
    ∀ (pre : List FileInfo) (acc : List Effect × List (String × String)),
    (∀ g ∈ pre, (processFileE t u cf g).isOk = true) →
    List.foldlM (stepPE t u cf) acc (pre ++ f :: post) = Except.error e := by
  intro pre
  induction pre with
  | nil =>
    intro acc _
    show List.foldlM (stepPE t u cf) acc (f :: post) = Except.error e
    have hstep : stepPE t u cf acc f = Except.error e := by
      simp [stepPE, hf]
    show stepPE t u cf acc f >>= (fun acc2 =>
      List.foldlM (stepPE t u cf) acc2 post) = Except.error e
    rw [hstep]
    rfl
  | cons g gs ih =>
    intro acc hok
    have hg := hok g (List.mem_cons_self g gs)
    cases hpg : processFileE t u cf g with
    | error e2 =>
      rw [hpg] at hg
      simp [Except.isOk, Except.toBool] at hg
    | ok r =>
      obtain ⟨fx, rec?⟩ := r
      have hnext : ∀ m2 : List (String × String),
          stepPE t u cf acc g = Except.ok (acc.1 ++ fx, m2) →
          List.foldlM (stepPE t u cf) acc ((g :: gs) ++ f :: post) =
            Except.error e := by
        intro m2 hstep
        show stepPE t u cf acc g >>= (fun acc2 =>
          List.foldlM (stepPE t u cf) acc2 (gs ++ f :: post)) = Except.error e
        rw [hstep]
        show List.foldlM (stepPE t u cf) (acc.1 ++ fx, m2) (gs ++ f :: post) =
          Except.error e
        exact ih _ (fun g' hg' => hok g' (List.mem_cons_of_mem _ hg'))
      cases rec? with
      | some kv =>
        refine hnext (dictInsert acc.2 kv.1 kv.2) ?_
        unfold stepPE
        rw [hpg]
      | none =>
        refine hnext acc.2 ?_
        unfold stepPE
        rw [hpg]

/-! ### The claims -/

/-- C1: for every eligible image file, the bucket is determined by testing the
two filename patterns in the fixed order `^(\d{4})(\d{2})(\d{2})_` then
`IMG-(\d{4})(\d{2})(\d{2})-`, first match wins; on a match the bucket is
`year ++ "-" ++ month` built from the captured digits (any digits are
accepted, so no month/day validation), and the outcome is identical for
every modification-time value, which is never consulted. -/
theorem c1_filename_patterns (t u root fn : String) (mt : Except String Date)
    (himg : isImageFile fn = true) :
    (∀ y m dd, matchPattern1 fn.data = some (y, m, dd) →
      processFile t u ⟨root, fn, true, mt⟩ =
        ([Effect.makedirs (joinPath t (y ++ "-" ++ m)),
          Effect.copy2 (joinPath root fn) (joinPath (joinPath t (y ++ "-" ++ m)) fn),
          Effect.print ("Copied " ++ fn ++ " to " ++ joinPath t (y ++ "-" ++ m))],
         some (fn, y ++ "-" ++ m))) ∧
    (matchPattern1 fn.data = none →
     ∀ y m dd, matchPattern2 fn.data = some (y, m, dd) →
      processFile t u ⟨root, fn, true, mt⟩ =
        ([Effect.makedirs (joinPath t (y ++ "-" ++ m)),
          Effect.copy2 (joinPath root fn) (joinPath (joinPath t (y ++ "-" ++ m)) fn),
          Effect.print ("Copied " ++ fn ++ " to " ++ joinPath t (y ++ "-" ++ m))],
         some (fn, y ++ "-" ++ m))) := by
  constructor
  · intro y m dd h1
    unfold processFile firstPatternMatch
    simp [himg, h1]
  · intro h0 y m dd h2
    unfold processFile firstPatternMatch
    simp [himg, h0, h2]

theorem c1_filename_patterns_witness :
    isImageFile ("20231399_IMG-19990101-x.jpg") = true ∧
    matchPattern1 ("20231399_IMG-19990101-x.jpg").data = some ("2023", "13", "99") ∧
    processFile ("/t") ("/u")
        ⟨"/r", "20231399_IMG-19990101-x.jpg", true, Except.error ("boom")⟩ =
      ([Effect.makedirs ("/t/2023-13"),
        Effect.copy2 ("/r/20231399_IMG-19990101-x.jpg")
          ("/t/2023-13/20231399_IMG-19990101-x.jpg"),
        Effect.print ("Copied 20231399_IMG-19990101-x.jpg to /t/2023-13")],
       some ("20231399_IMG-19990101-x.jpg", "2023-13")) := by
  refine ⟨by decide, by decide, ?_⟩
  have h := (c1_filename_patterns "/t" "/u" "/r" "20231399_IMG-19990101-x.jpg"
    (Except.error "boom") (by decide)).1 "2023" "13" "99" (by decide)
  exact h

/-- C2: an eligible file matching neither pattern, with readable modification
time, goes to the bucket obtained by formatting the local-time year and month
of that timestamp as `YYYY-MM`. -/
theorem c2_mtime_fallback (t u root fn : String) (dt : Date)
    (himg : isImageFile fn = true)
    (h1 : matchPattern1 fn.data = none) (h2 : matchPattern2 fn.data = none) :
    processFile t u ⟨root, fn, true, Except.ok dt⟩ =
      ([Effect.makedirs (joinPath t (pad4 dt.year ++ "-" ++ pad2 dt.month)),
        Effect.copy2 (joinPath root fn)
          (joinPath (joinPath t (pad4 dt.year ++ "-" ++ pad2 dt.month)) fn),
        Effect.print ("Copied " ++ fn ++ " to " ++
          joinPath t (pad4 dt.year ++ "-" ++ pad2 dt.month) ++
          " (using file modification time)")],
       some (fn, pad4 dt.year ++ "-" ++ pad2 dt.month)) := by
  unfold processFile firstPatternMatch
  simp [himg, h1, h2]

theorem c2_mtime_fallback_witness :
    isImageFile ("photo.jpg") = true ∧
    processFile ("/t") ("/u") ⟨"/r", "photo.jpg", true, Except.ok ⟨2022, 11, 3⟩⟩ =
      ([Effect.makedirs ("/t/2022-11"),
        Effect.copy2 ("/r/photo.jpg") ("/t/2022-11/photo.jpg"),
        Effect.print ("Copied photo.jpg to /t/2022-11 (using file modification time)")],
       some ("photo.jpg", "2022-11")) := by
  refine ⟨by decide, ?_⟩
  have h := c2_mtime_fallback "/t" "/u" "/r" "photo.jpg" ⟨2022, 11, 3⟩
    (by decide) (by decide) (by decide)
  exact h

/-- C3: when the source path is not an existing directory, the run prints the
error line, returns `false`, and performs no other effect: no directory is
created and no file is copied. -/
theorem c3_missing_source (inp : Input) (h : inp.isDir = false) :
    organize_images inp =
      ([Effect.print ("Error: Source directory '" ++ inp.source_dir ++
          "' does not exist.")], false) ∧
    (∀ p, Effect.makedirs p ∉ (organize_images inp).1) ∧
    (∀ s d, Effect.copy2 s d ∉ (organize_images inp).1) := by
  have heq : organize_images inp =
      ([Effect.print ("Error: Source directory '" ++ inp.source_dir ++
        "' does not exist.")], false) := by
    simp [organize_images, h]
  refine ⟨heq, ?_, ?_⟩
  · intro p hp
    rw [heq] at hp
    simp at hp
  · intro s d hp
    rw [heq] at hp
    simp at hp

def inpC3 : Input :=
  { source_dir := "/nope", isDir := false, parent_dir := "/", files := [] }

theorem c3_missing_source_witness :
    inpC3.isDir = false ∧
    organize_images inpC3 =
      ([Effect.print ("Error: Source directory '/nope' does not exist.")],
       false) := by
  refine ⟨rfl, ?_⟩
  have h := (c3_missing_source inpC3 rfl).1
  exact h

/-- C4: on the fallback path, a failure while reading or formatting the
modification time sends the file to the `unknown_date` bucket with the error
text embedded in the printed line; and the run is never aborted by it: the
walk still performs every file's own effects and returns `true`. -/
theorem c4_mtime_error_recovered :
    (∀ t u root fn e, isImageFile fn = true →
      matchPattern1 fn.data = none → matchPattern2 fn.data = none →
      processFile t u ⟨root, fn, true, Except.error e⟩ =
        ([Effect.copy2 (joinPath root fn) (joinPath u fn),
          Effect.print ("Copied " ++ fn ++
            " to unknown_date directory (error: " ++ e ++ ")")],
         some (fn, "unknown_date"))) ∧
    (∀ inp : Input, inp.isDir = true →
      organize_images inp = (headerEffects inp ++ (allFileEffects inp ++
        summaryEffects (targetOf inp) (processedMapOf inp)), true)) := by
  constructor
  · intro t u root fn e himg h1 h2
    unfold processFile firstPatternMatch
    simp [himg, h1, h2]
  · intro inp h
    exact organize_images_decomp inp h

theorem c4_mtime_error_recovered_witness :
    isImageFile ("photo.jpg") = true ∧
    processFile ("/t") ("/u") ⟨"/r", "photo.jpg", true, Except.error ("stat failed")⟩ =
      ([Effect.copy2 ("/r/photo.jpg") ("/u/photo.jpg"),
        Effect.print ("Copied photo.jpg to unknown_date directory (error: stat failed)")],
       some ("photo.jpg", "unknown_date")) := by
  refine ⟨by decide, ?_⟩
  have h := c4_mtime_error_recovered.1 "/t" "/u" "/r" "photo.jpg" "stat failed"
    (by decide) (by decide) (by decide)
  exact h

/-- C7: a file whose lowercased name does not end in a whitelisted extension
is skipped silently: nothing is copied, nothing is recorded, and removing it
from the walk leaves the whole run (effects, summary, total) unchanged. -/
theorem c7_non_image_skipped :
    (∀ t u f, isImageFile f.filename = false → processFile t u f = ([], none)) ∧
    (∀ (sd : String) (isd : Bool) (pd : String) (pre post : List FileInfo)
        (f : FileInfo), isImageFile f.filename = false →
      organize_images ⟨sd, isd, pd, pre ++ f :: post⟩ =
        organize_images ⟨sd, isd, pd, pre ++ post⟩) := by
  constructor
  · intro t u f h
    exact processFile_skip t u f h
  · intro sd isd pd pre post f h
    cases isd with
    | false => rfl
    | true =>
      have hfst : ∀ t u, (processFile t u f).1 = ([] : List Effect) := by
        intro t u
        rw [processFile_skip t u f h]
      have hsnd : ∀ t u, (processFile t u f).2 = none := by
        intro t u
        rw [processFile_skip t u f h]
      rw [organize_images_decomp ⟨sd, true, pd, pre ++ f :: post⟩ rfl,
          organize_images_decomp ⟨sd, true, pd, pre ++ post⟩ rfl]
      have h1 : allFileEffects ⟨sd, true, pd, pre ++ f :: post⟩ =
          allFileEffects ⟨sd, true, pd, pre ++ post⟩ := by
        unfold allFileEffects targetOf unknownOf
        simp [List.map_append, hfst]
        rfl
      have h2 : processedMapOf ⟨sd, true, pd, pre ++ f :: post⟩ =
          processedMapOf ⟨sd, true, pd, pre ++ post⟩ := by
        unfold processedMapOf entriesOf processedEntries targetOf unknownOf
        simp [List.filterMap_append, List.filterMap_cons, hsnd]
        rfl
      rw [h1, h2]
      rfl

theorem c7_non_image_skipped_witness :
    isImageFile ("notes.txt") = false ∧
    processFile ("/t") ("/u") ⟨"/r", "notes.txt", true, Except.error ("E")⟩ =
      ([], none) := by
  refine ⟨by decide, ?_⟩
  exact c7_non_image_skipped.1 "/t" "/u"
    ⟨"/r", "notes.txt", true, Except.error "E"⟩ (by decide)

/-- C10: eligibility is a pure suffix test on the lowercased name — every
whitelisted extension is itself an eligible filename (so a file named exactly
`.jpg` is treated as an image), and such a file is copied somewhere on every
modification-time outcome; content is never inspected (the model has no
content field at all). -/
theorem c10_suffix_eligibility :
    (∀ ext, ext ∈ image_extensions → isImageFile ext = true) ∧
    (∀ t u root mt, ∃ d, Effect.copy2 (joinPath root (".jpg")) d ∈
        (processFile t u ⟨root, ".jpg", true, mt⟩).1) := by
  constructor
  · decide
  · intro t u root mt
    cases mt with
    | ok dt =>
      have heq : processFile t u ⟨root, ".jpg", true, Except.ok dt⟩ =
          ([Effect.makedirs (joinPath t (pad4 dt.year ++ "-" ++ pad2 dt.month)),
            Effect.copy2 (joinPath root (".jpg"))
              (joinPath (joinPath t (pad4 dt.year ++ "-" ++ pad2 dt.month)) (".jpg")),
            Effect.print ("Copied " ++ ".jpg" ++ " to " ++
              joinPath t (pad4 dt.year ++ "-" ++ pad2 dt.month) ++
              " (using file modification time)")],
           some (".jpg", pad4 dt.year ++ "-" ++ pad2 dt.month)) := rfl
      refine ⟨joinPath (joinPath t (pad4 dt.year ++ "-" ++ pad2 dt.month)) (".jpg"), ?_⟩
      rw [heq]
      exact List.mem_cons_of_mem _ (List.mem_cons_self _ _)
    | error e =>
      have heq : processFile t u ⟨root, ".jpg", true, Except.error e⟩ =
          ([Effect.copy2 (joinPath root (".jpg")) (joinPath u (".jpg")),
            Effect.print ("Copied " ++ ".jpg" ++
              " to unknown_date directory (error: " ++ e ++ ")")],
           some (".jpg", "unknown_date")) := rfl
      refine ⟨joinPath u (".jpg"), ?_⟩
      rw [heq]
      exact List.mem_cons_self _ _

theorem c10_suffix_eligibility_witness :
    (".jpg" ∈ image_extensions) ∧ isImageFile (".jpg") = true ∧
    (∃ d, Effect.copy2 (joinPath ("/r") (".jpg")) d ∈
      (processFile ("/t") ("/u") ⟨"/r", ".jpg", true, Except.error ("E")⟩).1) := by
  refine ⟨by decide, c10_suffix_eligibility.1 (".jpg") (by decide), ?_⟩
  exact c10_suffix_eligibility.2 "/t" "/u" "/r" (Except.error "E")

/-- C6: source files are only ever read: every effect of a run is a console
print, a directory creation, or a metadata-preserving `copy2` whose source is
one of the walked files — no effect modifies or deletes a source file. -/
theorem c6_source_never_modified (inp : Input) (e : Effect)
    (he : e ∈ (organize_images inp).1) :
    (∃ s, e = Effect.print s) ∨ (∃ p, e = Effect.makedirs p) ∨
    (∃ f, f ∈ inp.files ∧ ∃ d, e = Effect.copy2 (joinPath f.root f.filename) d) := by
  cases hd : inp.isDir with
  | false =>
    have heq := (c3_missing_source inp hd).1
    rw [heq] at he
    simp at he
    exact Or.inl ⟨_, he⟩
  | true =>
    rw [organize_images_decomp inp hd] at he
    simp only [List.mem_append] at he
    rcases he with h | h | h
    · unfold headerEffects at h
      simp only [List.mem_cons, List.not_mem_nil, or_false] at h
      rcases h with h | h
      · exact Or.inr (Or.inl ⟨_, h⟩)
      · exact Or.inr (Or.inl ⟨_, h⟩)
    · unfold allFileEffects at h
      rw [List.mem_flatten] at h
      obtain ⟨l, hl, hel⟩ := h
      rw [List.mem_map] at hl
      obtain ⟨f, hf, rfl⟩ := hl
      rcases processFile_mem_shape _ _ f e hel with
        ⟨s, hh⟩ | ⟨p, hh⟩ | ⟨b, hh, _⟩ | ⟨hh, _⟩
      · exact Or.inl ⟨s, hh⟩
      · exact Or.inr (Or.inl ⟨p, hh⟩)
      · exact Or.inr (Or.inr ⟨f, hf, _, hh⟩)
      · exact Or.inr (Or.inr ⟨f, hf, _, hh⟩)
    · obtain ⟨s, hh⟩ := summaryEffects_print _ _ e h
      exact Or.inl ⟨s, hh⟩

def inpC6 : Input :=
  { source_dir := "/p/photos", isDir := true, parent_dir := "/p",
    files := [⟨"/p/photos", "photo.jpg", true, Except.ok ⟨2022, 11, 3⟩⟩] }

theorem c6_source_never_modified_witness :
    (Effect.copy2 ("/p/photos/photo.jpg") ("/p/organized/2022-11/photo.jpg") ∈
      (organize_images inpC6).1) ∧
    ((∃ s, Effect.copy2 ("/p/photos/photo.jpg") ("/p/organized/2022-11/photo.jpg") =
        Effect.print s) ∨
     (∃ p, Effect.copy2 ("/p/photos/photo.jpg") ("/p/organized/2022-11/photo.jpg") =
        Effect.makedirs p) ∨
     (∃ f, f ∈ inpC6.files ∧ ∃ d,
        Effect.copy2 ("/p/photos/photo.jpg") ("/p/organized/2022-11/photo.jpg") =
          Effect.copy2 (joinPath f.root f.filename) d)) :=
  ⟨by decide, c6_source_never_modified inpC6 _ (by decide)⟩

/-- C8: a second run against an unchanged source (same directory answers,
same walked files) reproduces the first run exactly — in particular the same
bucket assignment — and every copy writes to
`<target>/<bucket>/<original filename>`, a path computed without consulting
the destination's contents, so a rerun overwrites in place instead of
creating a renamed duplicate. -/
theorem c8_idempotent_rerun (inp inp2 : Input) (hd : inp.isDir = true)
    (h1 : inp2.source_dir = inp.source_dir) (h2 : inp2.isDir = inp.isDir)
    (h3 : inp2.parent_dir = inp.parent_dir) (h4 : inp2.files = inp.files) :
    organize_images inp2 = organize_images inp ∧
    entriesOf inp2 = entriesOf inp ∧
    (∀ s d, Effect.copy2 s d ∈ (organize_images inp).1 →
      ∃ f, f ∈ inp.files ∧ s = joinPath f.root f.filename ∧
        ∃ b, d = joinPath (joinPath (targetOf inp) b) f.filename ∧
          (processFile (targetOf inp) (unknownOf inp) f).2 = some (f.filename, b)) := by
  have hi : inp2 = inp := by
    obtain ⟨a, b, c, l⟩ := inp
    obtain ⟨a2, b2, c2, l2⟩ := inp2
    simp_all
  refine ⟨by rw [hi], by rw [hi], ?_⟩
  intro s d hmem
  rw [organize_images_decomp inp hd] at hmem
  simp only [List.mem_append] at hmem
  rcases hmem with h | h | h
  · unfold headerEffects at h
    simp at h
  · unfold allFileEffects at h
    rw [List.mem_flatten] at h
    obtain ⟨l, hl, hel⟩ := h
    rw [List.mem_map] at hl
    obtain ⟨f, hf, rfl⟩ := hl
    rcases processFile_mem_shape _ _ f _ hel with
      ⟨s1, hh⟩ | ⟨p1, hh⟩ | ⟨b, hh, hrec⟩ | ⟨hh, hrec⟩
    · simp at hh
    · simp at hh
    · obtain ⟨hs, hdd⟩ := Effect.copy2.inj hh
      exact ⟨f, hf, hs, b, hdd, hrec⟩
    · obtain ⟨hs, hdd⟩ := Effect.copy2.inj hh
      exact ⟨f, hf, hs, "unknown_date", by rw [hdd]; rfl, hrec⟩
  · obtain ⟨s1, hh⟩ := summaryEffects_print _ _ _ h
    simp at hh

def inpC8 : Input :=
  { source_dir := "/p/photos", isDir := true, parent_dir := "/p",
    files := [⟨"/p/photos", "a.jpg", true, Except.error ("E")⟩] }

theorem c8_idempotent_rerun_witness :
    inpC8.isDir = true ∧
    organize_images inpC8 = organize_images inpC8 ∧
    (∃ f, f ∈ inpC8.files ∧ "/p/photos/a.jpg" = joinPath f.root f.filename ∧
      ∃ b, "/p/organized/unknown_date/a.jpg" =
          joinPath (joinPath (targetOf inpC8) b) f.filename ∧
        (processFile (targetOf inpC8) (unknownOf inpC8) f).2 =
          some (f.filename, b)) := by
  have h := c8_idempotent_rerun inpC8 inpC8 rfl rfl rfl rfl rfl
  exact ⟨rfl, h.1,
    h.2.2 ("/p/photos/a.jpg") ("/p/organized/unknown_date/a.jpg") (by decide)⟩

/-- C9: the printed total is `len(processed_files)`, and because that dict is
keyed on the bare filename, it equals the number of DISTINCT processed
filenames; when a filename repeats across subdirectories the total (and each
per-bucket count) is strictly smaller than the number of copies performed. -/
theorem c9_total_counts_distinct_names (inp : Input) (h : inp.isDir = true) :
    (Effect.print ("\nTotal files processed: " ++
        toString (((entriesOf inp).map Prod.fst).toFinset.card)) ∈
      (organize_images inp).1) ∧
    (¬ ((entriesOf inp).map Prod.fst).Nodup →
      ((entriesOf inp).map Prod.fst).toFinset.card <
        copyCount (organize_images inp).1) ∧
    (∀ b c, (b, c) ∈ year_month_counts (processedMapOf inp) →
      c ≤ ((entriesOf inp).map Prod.fst).toFinset.card) := by
  refine ⟨?_, ?_, ?_⟩
  · rw [organize_images_decomp inp h]
    simp only [List.mem_append]
    right; right
    unfold summaryEffects
    rw [← processedMapOf_length inp]
    simp
  · intro hdup
    rw [copyCount_organize inp h]
    calc ((entriesOf inp).map Prod.fst).toFinset.card
        < ((entriesOf inp).map Prod.fst).length := toFinset_card_lt_of_dup _ hdup
      _ = (entriesOf inp).length := List.length_map _ _
  · intro b c hbc
    have hle := year_month_counts_le (processedMapOf inp) b c hbc
    rw [processedMapOf_length inp] at hle
    exact hle

def inpC9 : Input :=
  { source_dir := "/s", isDir := true, parent_dir := "/",
    files := [⟨"/s/x", "a.jpg", true, Except.error ("E1")⟩,
              ⟨"/s/y", "a.jpg", true, Except.error ("E2")⟩] }

theorem c9_total_counts_distinct_names_witness :
    inpC9.isDir = true ∧
    ¬ ((entriesOf inpC9).map Prod.fst).Nodup ∧
    (Effect.print ("\nTotal files processed: " ++
        toString (((entriesOf inpC9).map Prod.fst).toFinset.card)) ∈
      (organize_images inpC9).1) ∧
    ((entriesOf inpC9).map Prod.fst).toFinset.card <
      copyCount (organize_images inpC9).1 := by
  have h := c9_total_counts_distinct_names inpC9 rfl
  exact ⟨rfl, by decide, h.1, h.2.1 (by decide)⟩

/-- The failing-copy oracle for the C5 counterexample: copying into the
2022-11 bucket raises `disk full`; every other copy succeeds. -/
def c5CopyFail : String → String → Option String :=
  fun _src dest =>
    if dest = "/p/organized/2022-11/photo.jpg" then some ("disk full") else none

def inpC5 : Input :=
  { source_dir := "/p/photos", isDir := true, parent_dir := "/p",
    files := [⟨"/p/photos", "photo.jpg", true, Except.ok ⟨2022, 11, 3⟩⟩] }

/-- C5 counterexample: a `copy2` failure on the modification-time fallback
path does NOT propagate: the surrounding `try/except` catches it, the file is
re-routed to `unknown_date` with the error text printed, and the run
completes normally returning `true`. -/
theorem c5_counterexample :
    c5CopyFail ("/p/photos/photo.jpg") ("/p/organized/2022-11/photo.jpg") =
      some ("disk full") ∧
    organizeE inpC5 c5CopyFail =
      Except.ok
        ([Effect.makedirs ("/p/organized"),
          Effect.makedirs ("/p/organized/unknown_date"),
          Effect.makedirs ("/p/organized/2022-11"),
          Effect.copy2 ("/p/photos/photo.jpg") ("/p/organized/unknown_date/photo.jpg"),
          Effect.print ("Copied photo.jpg to unknown_date directory (error: disk full)"),
          Effect.print ("\nSummary of organization:"),
          Effect.print ("unknown_date: 1 files"),
          Effect.print ("\nTotal files processed: 1"),
          Effect.print ("\nOrganized files are in: /p/organized")], true) := by
  exact ⟨by decide, by decide⟩

/-- C5 amended: a copy error on the filename-pattern branch, or in the
`except` handler's own copy to `unknown_date`, is unhandled and (at run
level) terminates the run as an uncaught failure; but a copy error on the
modification-time fallback branch is caught by the generic `except` and the
file is redirected to `unknown_date` instead. -/
theorem c5_copy_error_paths :
    (∀ t u cf (f : FileInfo) y m dd err, f.isFile = true →
      isImageFile f.filename = true →
      firstPatternMatch f.filename = some (y, m, dd) →
      cf (joinPath f.root f.filename)
        (joinPath (joinPath t (y ++ "-" ++ m)) f.filename) = some err →
      processFileE t u cf f = Except.error err) ∧
    (∀ t u cf (f : FileInfo) (dt : Date) err, f.isFile = true →
      isImageFile f.filename = true →
      firstPatternMatch f.filename = none →
      f.mtime = Except.ok dt →
      cf (joinPath f.root f.filename)
        (joinPath (joinPath t (pad4 dt.year ++ "-" ++ pad2 dt.month)) f.filename) =
        some err →
      cf (joinPath f.root f.filename) (joinPath u f.filename) = none →
      processFileE t u cf f = Except.ok
        ([Effect.makedirs (joinPath t (pad4 dt.year ++ "-" ++ pad2 dt.month)),
          Effect.copy2 (joinPath f.root f.filename) (joinPath u f.filename),
          Effect.print ("Copied " ++ f.filename ++
            " to unknown_date directory (error: " ++ err ++ ")")],
         some (f.filename, "unknown_date"))) ∧
    (∀ t u cf (f : FileInfo) err err2, f.isFile = true →
      isImageFile f.filename = true →
      firstPatternMatch f.filename = none →
      f.mtime = Except.error err →
      cf (joinPath f.root f.filename) (joinPath u f.filename) = some err2 →
      processFileE t u cf f = Except.error err2) ∧
    (∀ (inp : Input) cf (pre post : List FileInfo) (f : FileInfo) e,
      inp.isDir = true → inp.files = pre ++ f :: post →
      (∀ g ∈ pre, (processFileE (targetOf inp) (unknownOf inp) cf g).isOk = true) →
      processFileE (targetOf inp) (unknownOf inp) cf f = Except.error e →
      organizeE inp cf = Except.error e) := by
  refine ⟨?_, ?_, ?_, ?_⟩
  · intro t u cf f y m dd err hfile himg hpat hcf
    unfold processFileE
    simp [hfile, himg, hpat, hcf]
  · intro t u cf f dt err hfile himg hpat hmt hcf hcf2
    unfold processFileE
    simp [hfile, himg, hpat, hmt, hcf, hcf2]
  · intro t u cf f err err2 hfile himg hpat hmt hcf
    unfold processFileE
    simp [hfile, himg, hpat, hmt, hcf]
  · intro inp cf pre post f e hd hfiles hok hf
    have herr := foldlM_stepPE_error (targetOf inp) (unknownOf inp) cf f post e hf
      pre ([Effect.makedirs (targetOf inp), Effect.makedirs (unknownOf inp)], []) hok
    simp only [unknownOf, targetOf] at herr
    unfold organizeE
    simp only [hd, Bool.not_true, Bool.false_eq_true, if_false]
    rw [hfiles, herr]

def c5aCopyFail : String → String → Option String :=
  fun _src dest =>
    if dest = "/t/2023-05/IMG-20230515-WA001.jpg" then some ("denied") else none

theorem c5_copy_error_paths_witness :
    c5aCopyFail ("/r/IMG-20230515-WA001.jpg") ("/t/2023-05/IMG-20230515-WA001.jpg") =
      some ("denied") ∧
    processFileE ("/t") ("/u") c5aCopyFail
        ⟨"/r", "IMG-20230515-WA001.jpg", true, Except.error ("E")⟩ =
      Except.error ("denied") := by
  refine ⟨by decide, ?_⟩
  exact c5_copy_error_paths.1 "/t" "/u" c5aCopyFail
    ⟨"/r", "IMG-20230515-WA001.jpg", true, Except.error "E"⟩
    "2023" "05" "15" "denied" rfl (by decide) (by decide) (by decide)

end OrganizeImages
